import Mathlib

/-!
# fftw.c: plan creation, execution and disposal

A shallow embedding of `src/pkg/src/fftw.c`, the R wrapper around FFTW3 for
1-D complex FFTs and real DCTs.

* C objects live in an explicit `World`: the static flag `initialized`, the
  plan records obtained from `Calloc`, the `double` cells of the buffers, and
  the log of every call that leaves fftw.c (FFTW3 and the R allocator).
* What such a call returns is not fixed by fftw.c. It is supplied by a
  `Runtime`, a deterministic function of the calls made so far and of the
  buffer contents; theorems quantify over every `Runtime`.
* A `double` is its 64-bit pattern: fftw.c only copies doubles and writes the
  literal `0.0`, it never does arithmetic on them.
* R's `error()` does not return; it is the outcome `Outcome.error`, carrying
  the world at the moment it is raised.  A failed `assert` is `Outcome.abort`;
  reading a plan record through a pointer to freed storage is
  `Outcome.undefined`.
* Buffer cells are a total store indexed by block address and cell index;
  liveness and bounds of buffer blocks are not tracked.
-/

namespace Fftw

/-! ## C and R data -/

/-- Address of a C object. -/
abbrev Ptr := Nat

/-- The null pointer. -/
def NULL : Ptr := 0

/-- A C `double`, represented by its bit pattern. -/
structure double where
  bits : Nat
deriving DecidableEq, Repr

/-- The literal `0.0`. -/
def double.zero : double := ⟨0⟩

/-- R's `Rcomplex`: fields `r` and `i`. -/
structure Rcomplex where
  r : double
  i : double
deriving DecidableEq, Repr

/-- The R values handed to the execute functions as `s_x`.  Only `TYPEOF`,
`length`, `REAL` and `COMPLEX` are used on them, so every type other than
`REALSXP` and `CPLXSXP` is represented by its length alone. -/
inductive SEXP where
  | REALSXP (x : List double)
  | CPLXSXP (x : List Rcomplex)
  | other (len : Nat)
deriving DecidableEq, Repr

/-- R's `length()`. -/
def length : SEXP → Nat
  | .REALSXP x => x.length
  | .CPLXSXP x => x.length
  | .other len => len

/-- The four effort flags of fftw3.h that `choose_effort` can return. -/
inductive Effort where
  | FFTW_ESTIMATE
  | FFTW_MEASURE
  | FFTW_PATIENT
  | FFTW_EXHAUSTIVE
deriving DecidableEq, Repr

/-- Planner flags `FFTW_DESTROY_INPUT | effort`: whether `FFTW_DESTROY_INPUT`
is set, and the effort flag or-ed to it. -/
structure Flags where
  destroy_input : Bool
  effort : Effort
deriving DecidableEq, Repr

/-- Direction of a complex transform: `FFTW_FORWARD` or `FFTW_BACKWARD`. -/
inductive Sign where
  | FFTW_FORWARD
  | FFTW_BACKWARD
deriving DecidableEq, Repr

/-- The `fftw_r2r_kind` values used by fftw.c. -/
inductive fftw_r2r_kind where
  | FFTW_REDFT00
  | FFTW_REDFT10
  | FFTW_REDFT01
  | FFTW_REDFT11
deriving DecidableEq, Repr

/-- The record `fft_plan` (the field `in` is written `in_`). -/
structure fft_plan where
  size : Int
  in_ : Ptr
  out : Ptr
  forward : Ptr
  backward : Ptr
deriving DecidableEq, Repr

/-- The record `dct_plan` (the field `in` is written `in_`). -/
structure dct_plan where
  size : Int
  type : Int
  in_ : Ptr
  out : Ptr
  forward : Ptr
  backward : Ptr
deriving DecidableEq, Repr

/-- A plan record in `Calloc`ed storage. -/
inductive Record where
  | fft (p : fft_plan)
  | dct (p : dct_plan)
deriving DecidableEq, Repr

/-- The two C finalizers of fftw.c, as arguments of `R_RegisterCFinalizer`. -/
inductive CFinalizer where
  | fft_plan_finalizer
  | dct_plan_finalizer
deriving DecidableEq, Repr

/-- An R external pointer: the address given to `R_MakeExternalPtr` and the C
finalizer registered for it, if any. -/
structure ExternalPtr where
  addr : Ptr
  finalizer : Option CFinalizer
deriving DecidableEq, Repr

/-- R's `R_ExternalPtrAddr`. -/
def R_ExternalPtrAddr (s : ExternalPtr) : Ptr := s.addr

/-! ## The world outside fftw.c -/

/-- A call that leaves fftw.c, with its arguments and, where it has one, the
value it returned. -/
inductive Event where
  | fftw_import_system_wisdom
  | Calloc (ret : Ptr)
  | fftw_malloc (bytes : Nat) (ret : Ptr)
  | fftw_plan_dft_1d (n : Int) (inp out : Ptr) (sign : Sign) (flags : Flags) (ret : Ptr)
  | fftw_plan_r2r_1d (n : Int) (inp out : Ptr) (kind : fftw_r2r_kind) (flags : Flags) (ret : Ptr)
  | fftw_execute (p : Ptr)
  | fftw_free (p : Ptr)
  | fftw_destroy_plan (p : Ptr)
  | Free (p : Ptr)
deriving DecidableEq, Repr

/-- Contents of the buffers: the `double` at cell `j` of the block at `p`.  An
`fftw_complex` is `double[2]`, so `b[i][0]` is cell `2*i` and `b[i][1]` is cell
`2*i+1` of the block `b`. -/
abbrev Mem := Ptr → Nat → double

/-- The state the functions of fftw.c act on. -/
structure World where
  initialized : Bool
  heap : Ptr → Option Record
  mem : Mem
  trace : List Event

/-- Results of the calls that leave fftw.c, as functions of the calls made so
far and of the buffer contents.  The planners and `fftw_execute` may also
rewrite the buffers. -/
structure Runtime where
  Calloc : List Event → Ptr
  fftw_malloc : List Event → Nat → Ptr
  fftw_plan_dft_1d : List Event → Mem → Int → Ptr → Ptr → Sign → Flags → Ptr × Mem
  fftw_plan_r2r_1d : List Event → Mem → Int → Ptr → Ptr → fftw_r2r_kind → Flags → Ptr × Mem
  fftw_execute : List Event → Mem → Ptr → Mem

/-- How a call of a function of fftw.c ends. -/
inductive Outcome (α : Type) where
  | ok (v : α) (w : World)
  | error (msg : String) (w : World)
  | abort
  | undefined

/-- Append one call to the log. -/
def World.log (w : World) (e : Event) : World :=
  { w with trace := w.trace ++ [e] }

/-- Write a plan record at address `a`. -/
def World.setRecord (w : World) (a : Ptr) (r : Record) : World :=
  { w with heap := fun q => if q = a then some r else w.heap q }

/-- Write one `double` cell. -/
def store (m : Mem) (p : Ptr) (j : Nat) (v : double) : Mem :=
  fun q k => if q = p ∧ k = j then v else m q k

/-- Width of `size_t` in bits. -/
def SIZE_BITS : Nat := 64

/-- The product `sizeof(T) * n` in `size_t` arithmetic, `n` being an `int`. -/
def size_t_mul (sizeof : Nat) (n : Int) : Nat :=
  (sizeof * (n % (2 ^ SIZE_BITS : Int)).toNat) % 2 ^ SIZE_BITS

/-- Value of `sizeof(fftw_complex)`. -/
def sizeof_fftw_complex : Nat := 16

/-- Value of `sizeof(double)`. -/
def sizeof_double : Nat := 8

/-- The call `Calloc(1, T)`: a fresh record `init` with all fields zero. -/
def call_Calloc (R : Runtime) (w : World) (init : Record) : Ptr × World :=
  let a := R.Calloc w.trace
  (a, (w.setRecord a init).log (.Calloc a))

/-- The call `fftw_malloc(bytes)`. -/
def call_fftw_malloc (R : Runtime) (w : World) (bytes : Nat) : Ptr × World :=
  let p := R.fftw_malloc w.trace bytes
  (p, w.log (.fftw_malloc bytes p))

/-- The call `fftw_plan_dft_1d(n, inp, out, sign, flags)`. -/
def call_fftw_plan_dft_1d (R : Runtime) (w : World) (n : Int) (inp out : Ptr)
    (sign : Sign) (flags : Flags) : Ptr × World :=
  let r := R.fftw_plan_dft_1d w.trace w.mem n inp out sign flags
  (r.1, { w with mem := r.2, trace := w.trace ++ [.fftw_plan_dft_1d n inp out sign flags r.1] })

/-- The call `fftw_plan_r2r_1d(n, inp, out, kind, flags)`. -/
def call_fftw_plan_r2r_1d (R : Runtime) (w : World) (n : Int) (inp out : Ptr)
    (kind : fftw_r2r_kind) (flags : Flags) : Ptr × World :=
  let r := R.fftw_plan_r2r_1d w.trace w.mem n inp out kind flags
  (r.1, { w with mem := r.2, trace := w.trace ++ [.fftw_plan_r2r_1d n inp out kind flags r.1] })

/-- The call `fftw_execute(p)`. -/
def call_fftw_execute (R : Runtime) (w : World) (p : Ptr) : World :=
  { w with mem := R.fftw_execute w.trace w.mem p, trace := w.trace ++ [.fftw_execute p] }

/-- The call `fftw_free(p)`. -/
def call_fftw_free (w : World) (p : Ptr) : World := w.log (.fftw_free p)

/-- The call `fftw_destroy_plan(p)`. -/
def call_fftw_destroy_plan (w : World) (p : Ptr) : World := w.log (.fftw_destroy_plan p)

/-- The call `Free(plan)`: the record at `a` is gone. -/
def call_Free (w : World) (a : Ptr) : World :=
  { w with heap := fun q => if q = a then none else w.heap q, trace := w.trace ++ [.Free a] }

/-- A `dct_plan` record seen through an `fft_plan *`.  With a 4-byte `int` and
8-byte, 8-aligned pointers, `in`, `out`, `forward` and `backward` sit at
offsets 8, 16, 24 and 32 in both records, and `type` falls into the padding
that follows `size` in `fft_plan`. -/
def dct_plan.as_fft_plan (p : dct_plan) : fft_plan :=
  ⟨p.size, p.in_, p.out, p.forward, p.backward⟩

/-- Read the record at `a` through an `fft_plan *`. -/
def load_fft_plan (w : World) (a : Ptr) : Option fft_plan :=
  match w.heap a with
  | some (.fft p) => some p
  | some (.dct p) => some p.as_fft_plan
  | none => none

/-- Read the record at `a` through a `dct_plan *`.  No function of fftw.c hands
an `fft_plan` record to a DCT function; that case is left undefined. -/
def load_dct_plan (w : World) (a : Ptr) : Option dct_plan :=
  match w.heap a with
  | some (.dct p) => some p
  | _ => none

/-! ## The functions of fftw.c -/

/-- The function `fft_plan_finalizer` (fftw.c lines 43-55). -/
def fft_plan_finalizer (s_plan : ExternalPtr) (w : World) : Outcome Unit :=
  match load_fft_plan w (R_ExternalPtrAddr s_plan) with
  | none => .undefined
  | some plan =>
    let w := if NULL ≠ plan.in_ then call_fftw_free w plan.in_ else w
    let w := if NULL ≠ plan.out then call_fftw_free w plan.out else w
    let w := if NULL ≠ plan.forward then call_fftw_destroy_plan w plan.forward else w
    let w := if NULL ≠ plan.backward then call_fftw_destroy_plan w plan.backward else w
    .ok () (call_Free w (R_ExternalPtrAddr s_plan))

/-- The function `dct_plan_finalizer` (fftw.c lines 67-80). -/
def dct_plan_finalizer (s_plan : ExternalPtr) (w : World) : Outcome Unit :=
  match load_dct_plan w (R_ExternalPtrAddr s_plan) with
  | none => .undefined
  | some plan =>
    let w := if NULL ≠ plan.in_ then call_fftw_free w plan.in_ else w
    let w := if NULL ≠ plan.out then call_fftw_free w plan.out else w
    let w := if NULL ≠ plan.forward then call_fftw_destroy_plan w plan.forward else w
    let w := if NULL ≠ plan.backward ∧ plan.backward ≠ plan.forward
      then call_fftw_destroy_plan w plan.backward else w
    .ok () (call_Free w (R_ExternalPtrAddr s_plan))

/-- R running the C finalizer registered for an external pointer. -/
def run_finalizer (s : ExternalPtr) (w : World) : Outcome Unit :=
  match s.finalizer with
  | some .fft_plan_finalizer => fft_plan_finalizer s w
  | some .dct_plan_finalizer => dct_plan_finalizer s w
  | none => .ok () w

/-- The function `choose_effort` (fftw.c lines 83-95); the argument is
`INTEGER(s_effort)[0]`. -/
def choose_effort (effort : Int) : Effort :=
  if effort ≤ 0 then .FFTW_ESTIMATE
  else if effort = 1 then .FFTW_MEASURE
  else if effort = 2 then .FFTW_PATIENT
  else .FFTW_EXHAUSTIVE

/-- The size read from `s_n`, an integer vector: its length, or its only
element when the length is 1 (fftw.c lines 115-117 and 196, 221-222). -/
def plan_size (s_n : List Int) : Int :=
  let n : Int := s_n.length
  if n = 1 then s_n.headD 0 else n

/-- The block `if (!initialized) ...` (fftw.c lines 120-123 and 224-227). -/
def possibly_initialize_fftw (w : World) : World :=
  if !w.initialized then
    { w.log .fftw_import_system_wisdom with initialized := true }
  else w

/-- The function `FFT_plan` (fftw.c lines 110-140). -/
def FFT_plan (R : Runtime) (s_n : List Int) (s_effort : Int) (w : World) :
    Outcome ExternalPtr :=
  let effort := choose_effort s_effort
  let n := plan_size s_n
  let w := possibly_initialize_fftw w
  let (plan, w) := call_Calloc R w (.fft ⟨0, NULL, NULL, NULL, NULL⟩)
  let (inp, w) := call_fftw_malloc R w (size_t_mul sizeof_fftw_complex n)
  let (out, w) := call_fftw_malloc R w (size_t_mul sizeof_fftw_complex n)
  let (forward, w) := call_fftw_plan_dft_1d R w n inp out .FFTW_FORWARD ⟨true, effort⟩
  let (backward, w) := call_fftw_plan_dft_1d R w n inp out .FFTW_BACKWARD ⟨true, effort⟩
  let w := w.setRecord plan (.fft ⟨n, inp, out, forward, backward⟩)
  .ok ⟨plan, some .fft_plan_finalizer⟩ w

/-- The loop of fftw.c lines 165-168: `in[i][0] = x[i].r; in[i][1] = x[i].i`
for `i` from 0 below `n`. -/
def copy_complex_input (m : Mem) (inp : Ptr) (x : List Rcomplex) (n : Nat) : Mem :=
  (List.range n).foldl
    (fun m i => store (store m inp (2 * i) (x.getD i ⟨double.zero, double.zero⟩).r)
      inp (2 * i + 1) (x.getD i ⟨double.zero, double.zero⟩).i) m

/-- The loop of fftw.c lines 171-174: `in[i][0] = x[i]; in[i][1] = 0.0` for `i`
from 0 below `n`. -/
def promote_real_input (m : Mem) (inp : Ptr) (x : List double) (n : Nat) : Mem :=
  (List.range n).foldl
    (fun m i => store (store m inp (2 * i) (x.getD i double.zero)) inp (2 * i + 1) double.zero) m

/-- The loop of fftw.c lines 273-275: `in[i] = x[i]` for `i` from 0 below `n`. -/
def copy_real_input (m : Mem) (inp : Ptr) (x : List double) (n : Nat) : Mem :=
  (List.range n).foldl (fun m i => store m inp i (x.getD i double.zero)) m

/-- The loop of fftw.c lines 184-187 filling the fresh complex vector `ret`. -/
def copy_complex_output (m : Mem) (out : Ptr) (n : Nat) : List Rcomplex :=
  (List.range n).map (fun i => ⟨m out (2 * i), m out (2 * i + 1)⟩)

/-- The loop of fftw.c lines 285-287 filling the fresh real vector `ret`. -/
def copy_real_output (m : Mem) (out : Ptr) (n : Nat) : List double :=
  (List.range n).map (fun i => m out i)

/-- The function `FFT_execute` (fftw.c lines 142-191); `s_inv` is
`INTEGER(s_inv)[0]`. -/
def FFT_execute (R : Runtime) (s_plan : ExternalPtr) (s_x : SEXP) (s_inv : Int) (w : World) :
    Outcome SEXP :=
  if R_ExternalPtrAddr s_plan = NULL then .abort else
  match load_fft_plan w (R_ExternalPtrAddr s_plan) with
  | none => .undefined
  | some plan =>
    let p := if s_inv = 0 then plan.forward else plan.backward
    let n := length s_x
    if (n : Int) ≠ plan.size then .error "Input and plan size differ." w else
    let filled : Option World :=
      match s_x with
      | .CPLXSXP x => some { w with mem := copy_complex_input w.mem plan.in_ x n }
      | .REALSXP x => some { w with mem := promote_real_input w.mem plan.in_ x n }
      | .other _ => none
    match filled with
    | none => .error "'s_x' must be real or complex." w
    | some w =>
      let w := call_fftw_execute R w p
      .ok (.CPLXSXP (copy_complex_output w.mem plan.out n)) w

/-- The block "Decide on type of DCT" (fftw.c lines 203-218): the locals
`fw_type` and `bw_type`, or nothing when `error` is raised. -/
def DCT_kinds (type : Int) : Option (fftw_r2r_kind × fftw_r2r_kind) :=
  if type = 1 then some (.FFTW_REDFT00, .FFTW_REDFT00)
  else if type = 2 then some (.FFTW_REDFT10, .FFTW_REDFT01)
  else if type = 3 then some (.FFTW_REDFT01, .FFTW_REDFT10)
  else if type = 4 then some (.FFTW_REDFT11, .FFTW_REDFT11)
  else none

/-- The function `DCT_plan` (fftw.c lines 194-248); `s_type` is
`INTEGER(s_type)[0]`.  Line 246 registers `fft_plan_finalizer`. -/
def DCT_plan (R : Runtime) (s_n : List Int) (s_type : Int) (s_effort : Int) (w : World) :
    Outcome ExternalPtr :=
  let effort := choose_effort s_effort
  match DCT_kinds s_type with
  | none => .error "Unknown type specified." w
  | some (fw_type, bw_type) =>
    let n := plan_size s_n
    let w := possibly_initialize_fftw w
    let (plan, w) := call_Calloc R w (.dct ⟨0, 0, NULL, NULL, NULL, NULL⟩)
    let (inp, w) := call_fftw_malloc R w (size_t_mul sizeof_double n)
    let (out, w) := call_fftw_malloc R w (size_t_mul sizeof_double n)
    let (forward, w) := call_fftw_plan_r2r_1d R w n inp out fw_type ⟨true, effort⟩
    let (backward, w) :=
      if bw_type = fw_type then (forward, w)
      else call_fftw_plan_r2r_1d R w n inp out bw_type ⟨true, effort⟩
    let w := w.setRecord plan (.dct ⟨n, 0, inp, out, forward, backward⟩)
    .ok ⟨plan, some .fft_plan_finalizer⟩ w

/-- The function `DCT_execute` (fftw.c lines 250-291); `s_inv` is
`INTEGER(s_inv)[0]`. -/
def DCT_execute (R : Runtime) (s_plan : ExternalPtr) (s_x : SEXP) (s_inv : Int) (w : World) :
    Outcome SEXP :=
  if R_ExternalPtrAddr s_plan = NULL then .abort else
  match load_dct_plan w (R_ExternalPtrAddr s_plan) with
  | none => .undefined
  | some plan =>
    let p := if s_inv = 0 then plan.forward else plan.backward
    let n := length s_x
    if (n : Int) ≠ plan.size then .error "Input and plan size differ." w else
    match s_x with
    | .REALSXP x =>
      let w := { w with mem := copy_real_input w.mem plan.in_ x n }
      let w := call_fftw_execute R w p
      .ok (.REALSXP (copy_real_output w.mem plan.out n)) w
    | _ => .error "'s_x' must be real." w

/-! ## Observations, concrete inputs and specification predicates -/

/-- The log at the end of a call that returned or raised an R error. -/
def Outcome.trace {α : Type} : Outcome α → List Event
  | .ok _ w => w.trace
  | .error _ w => w.trace
  | .abort => []
  | .undefined => []

/-- The value a call returned, if it returned. -/
def Outcome.value? {α : Type} : Outcome α → Option α
  | .ok v _ => some v
  | _ => none

/-- Whether a call ran into undefined behaviour. -/
def Outcome.is_undefined {α : Type} : Outcome α → Bool
  | .undefined => true
  | _ => false

/-- Run a second call on the value and world the first one returned. -/
def Outcome.bind {α β : Type} : Outcome α → (α → World → Outcome β) → Outcome β
  | .ok v w, f => f v w
  | .error msg w, _ => .error msg w
  | .abort, _ => .abort
  | .undefined, _ => .undefined

/-- A concrete runtime: every allocation and every planner call returns the
fresh address `1 + number of calls so far`, planners leave the buffers alone,
and `fftw_execute` copies each block onto the block that follows it. -/
def demoRuntime : Runtime where
  Calloc t := t.length + 1
  fftw_malloc t _ := t.length + 1
  fftw_plan_dft_1d t m _ _ _ _ _ := (t.length + 1, m)
  fftw_plan_r2r_1d t m _ _ _ _ _ := (t.length + 1, m)
  fftw_execute _ m _ := fun q j => m (q - 1) j

/-- The world before any call: nothing initialized, allocated or logged. -/
def emptyWorld : World := ⟨false, fun _ => none, fun _ _ => double.zero, []⟩

/-- A world holding an FFT plan of size 2 at address 1 and a type 2 DCT plan
of size 2 at address 6. -/
def demoWorld : World :=
  ⟨true,
   fun a => if a = 1 then some (.fft ⟨2, 2, 3, 4, 5⟩)
     else if a = 6 then some (.dct ⟨2, 0, 7, 8, 9, 10⟩) else none,
   fun _ _ => double.zero, []⟩

/-- The complex sequence whose `i`-th element has real part `x[i]` and
imaginary part `0.0`. -/
def promote (x : List double) : List Rcomplex := x.map (fun d => ⟨d, double.zero⟩)

/-- The input buffer `b` holds the complex sequence `x` element-wise. -/
def holds_complex (m : Mem) (b : Ptr) (x : List Rcomplex) : Prop :=
  ∀ i (h : i < x.length), m b (2 * i) = x[i].r ∧ m b (2 * i + 1) = x[i].i

/-- The input buffer `b` holds the real sequence `x` element-wise. -/
def holds_real (m : Mem) (b : Ptr) (x : List double) : Prop :=
  ∀ i (h : i < x.length), m b i = x[i]

/-- Whether a logged call derives a strategy (a planner call). -/
def Event.is_derivation : Event → Bool
  | .fftw_plan_dft_1d _ _ _ _ _ _ => true
  | .fftw_plan_r2r_1d _ _ _ _ _ _ => true
  | _ => false

/-- Whether a logged call allocates a buffer. -/
def Event.is_allocation : Event → Bool
  | .fftw_malloc _ _ => true
  | _ => false

/-- The planner calls of a log, in order. -/
def derivations (t : List Event) : List Event := t.filter Event.is_derivation

/-- The buffer allocations of a log, in order. -/
def allocations (t : List Event) : List Event := t.filter Event.is_allocation

/-- The call logged by the one-time initialization, if it runs. -/
def initialization (w : World) : List Event :=
  if w.initialized then [] else [.fftw_import_system_wisdom]

/-- The release calls `fft_plan_finalizer` makes for a record: one for each
field that is not `NULL`, in the order in, out, forward, backward. -/
def fft_releases (plan : fft_plan) : List Event :=
  (if NULL ≠ plan.in_ then [.fftw_free plan.in_] else []) ++
  (if NULL ≠ plan.out then [.fftw_free plan.out] else []) ++
  (if NULL ≠ plan.forward then [.fftw_destroy_plan plan.forward] else []) ++
  (if NULL ≠ plan.backward then [.fftw_destroy_plan plan.backward] else [])

/-- The release calls `dct_plan_finalizer` makes for a record: as
`fft_releases`, but `backward` is skipped when it equals `forward`. -/
def dct_releases (plan : dct_plan) : List Event :=
  (if NULL ≠ plan.in_ then [.fftw_free plan.in_] else []) ++
  (if NULL ≠ plan.out then [.fftw_free plan.out] else []) ++
  (if NULL ≠ plan.forward then [.fftw_destroy_plan plan.forward] else []) ++
  (if NULL ≠ plan.backward ∧ plan.backward ≠ plan.forward
    then [.fftw_destroy_plan plan.backward] else [])

/-! ## Lemmas and theorems -/

/-- C8: for every integer effort value `e`, `choose_effort` returns
`FFTW_ESTIMATE` when `e <= 0`, `FFTW_MEASURE` when `e = 1`, `FFTW_PATIENT` when
`e = 2` and `FFTW_EXHAUSTIVE` when `e >= 3`; every integer is mapped to exactly
one level. -/
theorem choose_effort_levels (e : Int) :
    (e ≤ 0 → choose_effort e = .FFTW_ESTIMATE) ∧
    (e = 1 → choose_effort e = .FFTW_MEASURE) ∧
    (e = 2 → choose_effort e = .FFTW_PATIENT) ∧
    (3 ≤ e → choose_effort e = .FFTW_EXHAUSTIVE) ∧
    ∃! l : Effort, choose_effort e = l := by
  refine ⟨?_, ?_, ?_, ?_, ?_⟩
  · intro h; simp [choose_effort, h]
  · intro h; subst h; simp [choose_effort]
  · intro h; subst h; simp [choose_effort]
  · intro h
    have h1 : ¬ e ≤ 0 := by omega
    have h2 : ¬ e = 1 := by omega
    have h3 : ¬ e = 2 := by omega
    simp [choose_effort, h1, h2, h3]
  · exact ⟨choose_effort e, rfl, fun l hl => hl.symm⟩

/-- C5: for every DCT type code outside 1, 2, 3, 4 and every size and effort,
`DCT_plan` raises the error "Unknown type specified." in the world it was
called in: no plan is returned, nothing is allocated or derived, and the flag
`initialized`, the records, the buffers and the log are unchanged. -/
theorem DCT_plan_unknown_type (R : Runtime) (w : World) (s_n : List Int) (s_type s_effort : Int)
    (h : s_type ≠ 1 ∧ s_type ≠ 2 ∧ s_type ≠ 3 ∧ s_type ≠ 4) :
    DCT_plan R s_n s_type s_effort w = .error "Unknown type specified." w := by
  obtain ⟨h1, h2, h3, h4⟩ := h
  simp [DCT_plan, DCT_kinds, h1, h2, h3, h4]

/-- C4: for every live plan record and every input whose length differs from
the plan's `size`, `FFT_execute` and `DCT_execute` raise the error "Input and
plan size differ." in the world they were called in: no result, no call of
`fftw_execute`, and buffers, plan records and log exactly as before. -/
theorem execute_size_mismatch (R : Runtime) (w : World) (s_plan : ExternalPtr) (s_x : SEXP)
    (s_inv : Int) :
    (∀ plan : fft_plan, R_ExternalPtrAddr s_plan ≠ NULL →
      load_fft_plan w (R_ExternalPtrAddr s_plan) = some plan → (length s_x : Int) ≠ plan.size →
      FFT_execute R s_plan s_x s_inv w = .error "Input and plan size differ." w) ∧
    (∀ plan : dct_plan, R_ExternalPtrAddr s_plan ≠ NULL →
      load_dct_plan w (R_ExternalPtrAddr s_plan) = some plan → (length s_x : Int) ≠ plan.size →
      DCT_execute R s_plan s_x s_inv w = .error "Input and plan size differ." w) := by
  constructor
  · intro plan ha hp hx
    simp [FFT_execute, ha, hp, hx]
  · intro plan ha hp hx
    simp [DCT_execute, ha, hp, hx]

/-- C10: for every live plan record and every input of length `size` whose
type is not accepted (neither `REALSXP` nor `CPLXSXP` for `FFT_execute`;
anything but `REALSXP` for `DCT_execute`), the call raises the type error in
the world it was called in: no result, no call of `fftw_execute`, buffers
unchanged. -/
theorem execute_type_mismatch (R : Runtime) (w : World) (s_plan : ExternalPtr) (s_x : SEXP)
    (s_inv : Int) :
    (∀ plan : fft_plan, R_ExternalPtrAddr s_plan ≠ NULL →
      load_fft_plan w (R_ExternalPtrAddr s_plan) = some plan → (length s_x : Int) = plan.size →
      (∀ x, s_x ≠ .REALSXP x) → (∀ x, s_x ≠ .CPLXSXP x) →
      FFT_execute R s_plan s_x s_inv w = .error "'s_x' must be real or complex." w) ∧
    (∀ plan : dct_plan, R_ExternalPtrAddr s_plan ≠ NULL →
      load_dct_plan w (R_ExternalPtrAddr s_plan) = some plan → (length s_x : Int) = plan.size →
      (∀ x, s_x ≠ .REALSXP x) →
      DCT_execute R s_plan s_x s_inv w = .error "'s_x' must be real." w) := by
  constructor
  · intro plan ha hp hx hr hc
    cases s_x with
    | REALSXP x => exact absurd rfl (hr x)
    | CPLXSXP x => exact absurd rfl (hc x)
    | other len => simp [FFT_execute, ha, hp, hx]
  · intro plan ha hp hx hr
    cases s_x with
    | REALSXP x => exact absurd rfl (hr x)
    | CPLXSXP x => simp [DCT_execute, ha, hp, hx]
    | other len => simp [DCT_execute, ha, hp, hx]

theorem copy_complex_input_succ (m : Mem) (inp : Ptr) (x : List Rcomplex) (n : Nat) :
    copy_complex_input m inp x (n + 1) =
      store (store (copy_complex_input m inp x n) inp (2 * n)
        (x.getD n ⟨double.zero, double.zero⟩).r) inp (2 * n + 1)
        (x.getD n ⟨double.zero, double.zero⟩).i := by
  simp [copy_complex_input, List.range_succ, List.foldl_append]

theorem promote_real_input_succ (m : Mem) (inp : Ptr) (x : List double) (n : Nat) :
    promote_real_input m inp x (n + 1) =
      store (store (promote_real_input m inp x n) inp (2 * n) (x.getD n double.zero))
        inp (2 * n + 1) double.zero := by
  simp [promote_real_input, List.range_succ, List.foldl_append]

theorem copy_real_input_succ (m : Mem) (inp : Ptr) (x : List double) (n : Nat) :
    copy_real_input m inp x (n + 1) =
      store (copy_real_input m inp x n) inp n (x.getD n double.zero) := by
  simp [copy_real_input, List.range_succ, List.foldl_append]

theorem copy_complex_input_holds (m : Mem) (inp : Ptr) (x : List Rcomplex) (n : Nat)
    (hn : n ≤ x.length) (i : Nat) (hi : i < n) :
    copy_complex_input m inp x n inp (2 * i) = (x.getD i ⟨double.zero, double.zero⟩).r ∧
    copy_complex_input m inp x n inp (2 * i + 1) = (x.getD i ⟨double.zero, double.zero⟩).i := by
  induction n with
  | zero => omega
  | succ k ih =>
    rw [copy_complex_input_succ]
    by_cases hik : i = k
    · subst hik
      simp [store]
    · have hlt : i < k := by omega
      have h := ih (by omega) hlt
      have e1 : ¬ (2 * i = 2 * k + 1) := by omega
      have e2 : ¬ (2 * i = 2 * k) := by omega
      have e3 : ¬ (2 * i + 1 = 2 * k + 1) := by omega
      have e4 : ¬ (2 * i + 1 = 2 * k) := by omega
      simp [store, e1, e2, e3, e4, h.1, h.2]

theorem copy_real_input_holds (m : Mem) (inp : Ptr) (x : List double) (n : Nat)
    (i : Nat) (hi : i < n) :
    copy_real_input m inp x n inp i = x.getD i double.zero := by
  induction n with
  | zero => omega
  | succ k ih =>
    rw [copy_real_input_succ]
    by_cases hik : i = k
    · subst hik
      simp [store]
    · have hlt : i < k := by omega
      simp [store, hik, ih hlt]

theorem promote_getD (x : List double) (i : Nat) :
    (promote x).getD i ⟨double.zero, double.zero⟩ = ⟨x.getD i double.zero, double.zero⟩ := by
  unfold promote
  exact List.getD_map x double.zero (fun d => (⟨d, double.zero⟩ : Rcomplex))

theorem promote_real_input_eq (m : Mem) (inp : Ptr) (x : List double) (n : Nat) :
    promote_real_input m inp x n = copy_complex_input m inp (promote x) n := by
  induction n with
  | zero => rfl
  | succ k ih =>
    rw [promote_real_input_succ, copy_complex_input_succ, ih, promote_getD]

/-- C9: for every live FFT plan, direction flag and real input `x` of length
`size`, `FFT_execute` on `x` behaves as on the complex input `promote x`: the
input buffer handed to the strategy is the same, and the two calls have the
same outcome (result and final world), which is a returned complex vector. -/
theorem real_input_is_promoted (R : Runtime) (w : World) (s_plan : ExternalPtr)
    (plan : fft_plan) (x : List double) (s_inv : Int)
    (ha : R_ExternalPtrAddr s_plan ≠ NULL)
    (hp : load_fft_plan w (R_ExternalPtrAddr s_plan) = some plan)
    (hx : (x.length : Int) = plan.size) :
    promote_real_input w.mem plan.in_ x x.length
      = copy_complex_input w.mem plan.in_ (promote x) (promote x).length ∧
    FFT_execute R s_plan (.REALSXP x) s_inv w
      = FFT_execute R s_plan (.CPLXSXP (promote x)) s_inv w ∧
    ∃ ret w', FFT_execute R s_plan (.REALSXP x) s_inv w = .ok (.CPLXSXP ret) w' := by
  have hl : (promote x).length = x.length := by simp [promote]
  refine ⟨?_, ?_, ?_⟩
  · rw [hl, promote_real_input_eq]
  · simp [FFT_execute, ha, hp, hx, length, hl, promote_real_input_eq]
  · simp [FFT_execute, ha, hp, hx, length]

theorem holds_complex_copy (m : Mem) (inp : Ptr) (x : List Rcomplex) :
    holds_complex (copy_complex_input m inp x x.length) inp x := by
  intro i hi
  have h := copy_complex_input_holds m inp x x.length (Nat.le_refl _) i hi
  rw [List.getD_eq_getElem x _ hi] at h
  exact h

theorem holds_real_copy (m : Mem) (inp : Ptr) (x : List double) :
    holds_real (copy_real_input m inp x x.length) inp x := by
  intro i hi
  have h := copy_real_input_holds m inp x x.length i hi
  rw [List.getD_eq_getElem x _ hi] at h
  exact h

/-- C6: for every live plan record and every accepted input of length `size`
(complex or real for `FFT_execute`, real for `DCT_execute`), the call returns a
vector of length `size` whose `i`-th element is the `i`-th element of the
output buffer, copied as it is, after `fftw_execute` ran on `forward` when
`s_inv` is 0 and on `backward` otherwise, in buffers where the input buffer
holds the input element-wise (real FFT input with imaginary part `0.0`). -/
theorem execute_returns_unscaled_output (R : Runtime) (w : World) (s_plan : ExternalPtr)
    (s_inv : Int) :
    (∀ (plan : fft_plan) (x : List Rcomplex), R_ExternalPtrAddr s_plan ≠ NULL →
      load_fft_plan w (R_ExternalPtrAddr s_plan) = some plan → (x.length : Int) = plan.size →
      ∃ m_in ret w', holds_complex m_in plan.in_ x ∧
        FFT_execute R s_plan (.CPLXSXP x) s_inv w = .ok (.CPLXSXP ret) w' ∧
        w'.mem = R.fftw_execute w.trace m_in (if s_inv = 0 then plan.forward else plan.backward) ∧
        w'.trace = w.trace ++ [.fftw_execute (if s_inv = 0 then plan.forward else plan.backward)] ∧
        (ret.length : Int) = plan.size ∧
        ∀ i (h : i < ret.length),
          ret[i] = ⟨w'.mem plan.out (2 * i), w'.mem plan.out (2 * i + 1)⟩) ∧
    (∀ (plan : fft_plan) (x : List double), R_ExternalPtrAddr s_plan ≠ NULL →
      load_fft_plan w (R_ExternalPtrAddr s_plan) = some plan → (x.length : Int) = plan.size →
      ∃ m_in ret w', holds_complex m_in plan.in_ (promote x) ∧
        FFT_execute R s_plan (.REALSXP x) s_inv w = .ok (.CPLXSXP ret) w' ∧
        w'.mem = R.fftw_execute w.trace m_in (if s_inv = 0 then plan.forward else plan.backward) ∧
        w'.trace = w.trace ++ [.fftw_execute (if s_inv = 0 then plan.forward else plan.backward)] ∧
        (ret.length : Int) = plan.size ∧
        ∀ i (h : i < ret.length),
          ret[i] = ⟨w'.mem plan.out (2 * i), w'.mem plan.out (2 * i + 1)⟩) ∧
    (∀ (plan : dct_plan) (x : List double), R_ExternalPtrAddr s_plan ≠ NULL →
      load_dct_plan w (R_ExternalPtrAddr s_plan) = some plan → (x.length : Int) = plan.size →
      ∃ m_in ret w', holds_real m_in plan.in_ x ∧
        DCT_execute R s_plan (.REALSXP x) s_inv w = .ok (.REALSXP ret) w' ∧
        w'.mem = R.fftw_execute w.trace m_in (if s_inv = 0 then plan.forward else plan.backward) ∧
        w'.trace = w.trace ++ [.fftw_execute (if s_inv = 0 then plan.forward else plan.backward)] ∧
        (ret.length : Int) = plan.size ∧
        ∀ i (h : i < ret.length), ret[i] = w'.mem plan.out i) := by
  refine ⟨?_, ?_, ?_⟩
  · intro plan x ha hp hx
    refine ⟨copy_complex_input w.mem plan.in_ x x.length,
      copy_complex_output (call_fftw_execute R
        { w with mem := copy_complex_input w.mem plan.in_ x x.length }
        (if s_inv = 0 then plan.forward else plan.backward)).mem plan.out x.length,
      call_fftw_execute R { w with mem := copy_complex_input w.mem plan.in_ x x.length }
        (if s_inv = 0 then plan.forward else plan.backward),
      holds_complex_copy _ _ _, ?_, rfl, rfl, ?_, ?_⟩
    · simp only [FFT_execute, ha, hp, length, hx, if_false, ne_eq, not_true_eq_false]
    · simpa [copy_complex_output] using hx
    · intro i h
      simp [copy_complex_output]
  · intro plan x ha hp hx
    have hl : (promote x).length = x.length := by simp [promote]
    refine ⟨copy_complex_input w.mem plan.in_ (promote x) (promote x).length,
      copy_complex_output (call_fftw_execute R
        { w with mem := copy_complex_input w.mem plan.in_ (promote x) (promote x).length }
        (if s_inv = 0 then plan.forward else plan.backward)).mem plan.out x.length,
      call_fftw_execute R
        { w with mem := copy_complex_input w.mem plan.in_ (promote x) (promote x).length }
        (if s_inv = 0 then plan.forward else plan.backward),
      holds_complex_copy _ _ _, ?_, rfl, rfl, ?_, ?_⟩
    · simp only [FFT_execute, ha, hp, length, hx, if_false, ne_eq, not_true_eq_false, hl,
        promote_real_input_eq]
    · simpa [copy_complex_output] using hx
    · intro i h
      simp [copy_complex_output]
  · intro plan x ha hp hx
    refine ⟨copy_real_input w.mem plan.in_ x x.length,
      copy_real_output (call_fftw_execute R
        { w with mem := copy_real_input w.mem plan.in_ x x.length }
        (if s_inv = 0 then plan.forward else plan.backward)).mem plan.out x.length,
      call_fftw_execute R { w with mem := copy_real_input w.mem plan.in_ x x.length }
        (if s_inv = 0 then plan.forward else plan.backward),
      holds_real_copy _ _ _, ?_, rfl, rfl, ?_, ?_⟩
    · simp only [DCT_execute, ha, hp, length, hx, if_false, ne_eq, not_true_eq_false]
    · simpa [copy_real_output] using hx
    · intro i h
      simp [copy_real_output]

theorem possibly_initialize_fftw_trace (w : World) :
    (possibly_initialize_fftw w).trace = w.trace ++ initialization w := by
  cases h : w.initialized <;> simp [possibly_initialize_fftw, initialization, h, World.log]

theorem possibly_initialize_fftw_initialized (w : World) :
    (possibly_initialize_fftw w).initialized = true := by
  cases h : w.initialized <;> simp [possibly_initialize_fftw, h, World.log]

theorem call_Calloc_trace (R : Runtime) (w : World) (r : Record) :
    (call_Calloc R w r).2.trace = w.trace ++ [.Calloc (call_Calloc R w r).1] := rfl

theorem call_Calloc_initialized (R : Runtime) (w : World) (r : Record) :
    (call_Calloc R w r).2.initialized = w.initialized := rfl

theorem call_fftw_malloc_trace (R : Runtime) (w : World) (b : Nat) :
    (call_fftw_malloc R w b).2.trace = w.trace ++ [.fftw_malloc b (call_fftw_malloc R w b).1] :=
  rfl

theorem call_fftw_malloc_initialized (R : Runtime) (w : World) (b : Nat) :
    (call_fftw_malloc R w b).2.initialized = w.initialized := rfl

theorem call_fftw_plan_r2r_1d_trace (R : Runtime) (w : World) (n : Int) (inp out : Ptr)
    (k : fftw_r2r_kind) (fl : Flags) :
    (call_fftw_plan_r2r_1d R w n inp out k fl).2.trace =
      w.trace ++ [.fftw_plan_r2r_1d n inp out k fl (call_fftw_plan_r2r_1d R w n inp out k fl).1] :=
  rfl

theorem call_fftw_plan_r2r_1d_initialized (R : Runtime) (w : World) (n : Int) (inp out : Ptr)
    (k : fftw_r2r_kind) (fl : Flags) :
    (call_fftw_plan_r2r_1d R w n inp out k fl).2.initialized = w.initialized := rfl

theorem call_fftw_plan_dft_1d_trace (R : Runtime) (w : World) (n : Int) (inp out : Ptr)
    (sg : Sign) (fl : Flags) :
    (call_fftw_plan_dft_1d R w n inp out sg fl).2.trace =
      w.trace ++ [.fftw_plan_dft_1d n inp out sg fl (call_fftw_plan_dft_1d R w n inp out sg fl).1] :=
  rfl

theorem call_fftw_plan_dft_1d_initialized (R : Runtime) (w : World) (n : Int) (inp out : Ptr)
    (sg : Sign) (fl : Flags) :
    (call_fftw_plan_dft_1d R w n inp out sg fl).2.initialized = w.initialized := rfl

theorem setRecord_trace (w : World) (a : Ptr) (r : Record) :
    (w.setRecord a r).trace = w.trace := rfl

theorem setRecord_initialized (w : World) (a : Ptr) (r : Record) :
    (w.setRecord a r).initialized = w.initialized := rfl

theorem setRecord_heap (w : World) (a : Ptr) (r : Record) :
    (w.setRecord a r).heap a = some r := by
  simp [World.setRecord]

theorem DCT_plan_ok (R : Runtime) (w : World) (s_n : List Int) (s_type s_effort : Int)
    (fw bw : fftw_r2r_kind) (hk : DCT_kinds s_type = some (fw, bw)) :
    ∃ a inp out f b w1,
      DCT_plan R s_n s_type s_effort w = .ok ⟨a, some .fft_plan_finalizer⟩ w1 ∧
      w1.heap a = some (.dct ⟨plan_size s_n, 0, inp, out, f, b⟩) ∧
      w1.trace = w.trace ++ initialization w ++
        [.Calloc a, .fftw_malloc (size_t_mul sizeof_double (plan_size s_n)) inp,
         .fftw_malloc (size_t_mul sizeof_double (plan_size s_n)) out,
         .fftw_plan_r2r_1d (plan_size s_n) inp out fw ⟨true, choose_effort s_effort⟩ f] ++
        (if bw = fw then []
         else [.fftw_plan_r2r_1d (plan_size s_n) inp out bw ⟨true, choose_effort s_effort⟩ b]) ∧
      (bw = fw → b = f) ∧ w1.initialized = true := by
  let c := call_Calloc R (possibly_initialize_fftw w) (.dct ⟨0, 0, NULL, NULL, NULL, NULL⟩)
  let i := call_fftw_malloc R c.2 (size_t_mul sizeof_double (plan_size s_n))
  let o := call_fftw_malloc R i.2 (size_t_mul sizeof_double (plan_size s_n))
  let f := call_fftw_plan_r2r_1d R o.2 (plan_size s_n) i.1 o.1 fw ⟨true, choose_effort s_effort⟩
  let b := call_fftw_plan_r2r_1d R f.2 (plan_size s_n) i.1 o.1 bw ⟨true, choose_effort s_effort⟩
  by_cases hbf : bw = fw
  · refine ⟨c.1, i.1, o.1, f.1, f.1,
      f.2.setRecord c.1 (.dct ⟨plan_size s_n, 0, i.1, o.1, f.1, f.1⟩), ?_, ?_, ?_, ?_, ?_⟩
    · simp only [DCT_plan, hk, hbf, if_true]
    · exact setRecord_heap _ _ _
    · simp only [setRecord_trace, f, o, i, c, call_fftw_plan_r2r_1d_trace,
        call_fftw_malloc_trace, call_Calloc_trace, possibly_initialize_fftw_trace, hbf, if_true,
        List.append_assoc, List.cons_append, List.nil_append, List.append_nil]
    · intro _; rfl
    · simp only [setRecord_initialized, f, o, i, c, call_fftw_plan_r2r_1d_initialized,
        call_fftw_malloc_initialized, call_Calloc_initialized,
        possibly_initialize_fftw_initialized]
  · refine ⟨c.1, i.1, o.1, f.1, b.1,
      b.2.setRecord c.1 (.dct ⟨plan_size s_n, 0, i.1, o.1, f.1, b.1⟩), ?_, ?_, ?_, ?_, ?_⟩
    · simp only [DCT_plan, hk, hbf, if_false]
    · exact setRecord_heap _ _ _
    · simp only [setRecord_trace, b, f, o, i, c, call_fftw_plan_r2r_1d_trace,
        call_fftw_malloc_trace, call_Calloc_trace, possibly_initialize_fftw_trace, hbf, if_false,
        List.append_assoc, List.cons_append, List.nil_append, List.append_nil]
    · intro h; exact absurd h hbf
    · simp only [setRecord_initialized, b, f, o, i, c, call_fftw_plan_r2r_1d_initialized,
        call_fftw_malloc_initialized, call_Calloc_initialized,
        possibly_initialize_fftw_initialized]

theorem FFT_plan_ok (R : Runtime) (w : World) (s_n : List Int) (s_effort : Int) :
    ∃ a inp out f b w1,
      FFT_plan R s_n s_effort w = .ok ⟨a, some .fft_plan_finalizer⟩ w1 ∧
      w1.heap a = some (.fft ⟨plan_size s_n, inp, out, f, b⟩) ∧
      w1.trace = w.trace ++ initialization w ++
        [.Calloc a, .fftw_malloc (size_t_mul sizeof_fftw_complex (plan_size s_n)) inp,
         .fftw_malloc (size_t_mul sizeof_fftw_complex (plan_size s_n)) out,
         .fftw_plan_dft_1d (plan_size s_n) inp out .FFTW_FORWARD ⟨true, choose_effort s_effort⟩ f,
         .fftw_plan_dft_1d (plan_size s_n) inp out .FFTW_BACKWARD ⟨true, choose_effort s_effort⟩ b]
      ∧ w1.initialized = true := by
  let c := call_Calloc R (possibly_initialize_fftw w) (.fft ⟨0, NULL, NULL, NULL, NULL⟩)
  let i := call_fftw_malloc R c.2 (size_t_mul sizeof_fftw_complex (plan_size s_n))
  let o := call_fftw_malloc R i.2 (size_t_mul sizeof_fftw_complex (plan_size s_n))
  let f := call_fftw_plan_dft_1d R o.2 (plan_size s_n) i.1 o.1 .FFTW_FORWARD
    ⟨true, choose_effort s_effort⟩
  let b := call_fftw_plan_dft_1d R f.2 (plan_size s_n) i.1 o.1 .FFTW_BACKWARD
    ⟨true, choose_effort s_effort⟩
  refine ⟨c.1, i.1, o.1, f.1, b.1,
    b.2.setRecord c.1 (.fft ⟨plan_size s_n, i.1, o.1, f.1, b.1⟩), ?_, ?_, ?_, ?_⟩
  · rfl
  · exact setRecord_heap _ _ _
  · simp only [setRecord_trace, b, f, o, i, c, call_fftw_plan_dft_1d_trace,
      call_fftw_malloc_trace, call_Calloc_trace, possibly_initialize_fftw_trace,
      List.append_assoc, List.cons_append, List.nil_append, List.append_nil]
  · simp only [setRecord_initialized, b, f, o, i, c, call_fftw_plan_dft_1d_initialized,
      call_fftw_malloc_initialized, call_Calloc_initialized,
      possibly_initialize_fftw_initialized]

theorem fft_plan_finalizer_ok (s : ExternalPtr) (w : World) (plan : fft_plan)
    (h : load_fft_plan w (R_ExternalPtrAddr s) = some plan) :
    ∃ w1, fft_plan_finalizer s w = .ok () w1 ∧
      w1.trace = w.trace ++ fft_releases plan ++ [.Free (R_ExternalPtrAddr s)] ∧
      w1.heap (R_ExternalPtrAddr s) = none ∧
      (∀ q, q ≠ R_ExternalPtrAddr s → w1.heap q = w.heap q) ∧
      w1.mem = w.mem ∧ w1.initialized = w.initialized := by
  refine ⟨_, by unfold fft_plan_finalizer; rw [h], ?_, ?_, ?_, ?_, ?_⟩
  · simp only [fft_releases]
    split_ifs <;> simp [call_Free, call_fftw_free, call_fftw_destroy_plan, World.log]
  · simp [call_Free]
  · intro q hq
    split_ifs <;> simp [call_Free, call_fftw_free, call_fftw_destroy_plan, World.log, hq]
  · split_ifs <;> simp [call_Free, call_fftw_free, call_fftw_destroy_plan, World.log]
  · split_ifs <;> simp [call_Free, call_fftw_free, call_fftw_destroy_plan, World.log]

theorem dct_plan_finalizer_ok (s : ExternalPtr) (w : World) (plan : dct_plan)
    (h : load_dct_plan w (R_ExternalPtrAddr s) = some plan) :
    ∃ w1, dct_plan_finalizer s w = .ok () w1 ∧
      w1.trace = w.trace ++ dct_releases plan ++ [.Free (R_ExternalPtrAddr s)] ∧
      w1.heap (R_ExternalPtrAddr s) = none ∧
      (∀ q, q ≠ R_ExternalPtrAddr s → w1.heap q = w.heap q) ∧
      w1.mem = w.mem ∧ w1.initialized = w.initialized := by
  refine ⟨_, by unfold dct_plan_finalizer; rw [h], ?_, ?_, ?_, ?_, ?_⟩
  · simp only [dct_releases]
    split_ifs <;> simp [call_Free, call_fftw_free, call_fftw_destroy_plan, World.log]
  · simp [call_Free]
  · intro q hq
    split_ifs <;> simp [call_Free, call_fftw_free, call_fftw_destroy_plan, World.log, hq]
  · split_ifs <;> simp [call_Free, call_fftw_free, call_fftw_destroy_plan, World.log]
  · split_ifs <;> simp [call_Free, call_fftw_free, call_fftw_destroy_plan, World.log]

theorem fft_plan_finalizer_freed (s : ExternalPtr) (w : World)
    (h : w.heap (R_ExternalPtrAddr s) = none) : fft_plan_finalizer s w = .undefined := by
  simp [fft_plan_finalizer, load_fft_plan, h]

theorem dct_plan_finalizer_freed (s : ExternalPtr) (w : World)
    (h : w.heap (R_ExternalPtrAddr s) = none) : dct_plan_finalizer s w = .undefined := by
  simp [dct_plan_finalizer, load_dct_plan, h]

theorem plan_size_single (n : Int) : plan_size [n] = n := by
  simp [plan_size]

theorem derivations_initialization (w : World) : derivations (initialization w) = [] := by
  cases h : w.initialized <;> simp [derivations, initialization, h, Event.is_derivation]

theorem allocations_initialization (w : World) : allocations (initialization w) = [] := by
  cases h : w.initialized <;> simp [allocations, initialization, h, Event.is_allocation]

theorem derivations_append (s t : List Event) :
    derivations (s ++ t) = derivations s ++ derivations t := by
  simp [derivations]

theorem allocations_append (s t : List Event) :
    allocations (s ++ t) = allocations s ++ allocations t := by
  simp [allocations]

/-- C7: `DCT_plan` resolves type 1 to (REDFT00, REDFT00), type 2 to
(REDFT10, REDFT01), type 3 to (REDFT01, REDFT10) and type 4 to
(REDFT11, REDFT11).  For types 1 and 4 it makes one planner call and stores its
handle in both `forward` and `backward`; for types 2 and 3 it makes two planner
calls, one for each kind. -/
theorem DCT_plan_kinds (R : Runtime) (w : World) (s_n : List Int) (s_effort : Int) :
    DCT_kinds 1 = some (.FFTW_REDFT00, .FFTW_REDFT00) ∧
    DCT_kinds 2 = some (.FFTW_REDFT10, .FFTW_REDFT01) ∧
    DCT_kinds 3 = some (.FFTW_REDFT01, .FFTW_REDFT10) ∧
    DCT_kinds 4 = some (.FFTW_REDFT11, .FFTW_REDFT11) ∧
    (∀ s_type : Int, s_type = 1 ∨ s_type = 4 →
      ∃ s w1 plan k, DCT_kinds s_type = some (k, k) ∧
        DCT_plan R s_n s_type s_effort w = .ok s w1 ∧
        load_dct_plan w1 (R_ExternalPtrAddr s) = some plan ∧
        plan.backward = plan.forward ∧
        derivations w1.trace = derivations w.trace ++
          [.fftw_plan_r2r_1d plan.size plan.in_ plan.out k ⟨true, choose_effort s_effort⟩
            plan.forward]) ∧
    (∀ s_type : Int, s_type = 2 ∨ s_type = 3 →
      ∃ s w1 plan fw bw, DCT_kinds s_type = some (fw, bw) ∧ fw ≠ bw ∧
        DCT_plan R s_n s_type s_effort w = .ok s w1 ∧
        load_dct_plan w1 (R_ExternalPtrAddr s) = some plan ∧
        derivations w1.trace = derivations w.trace ++
          [.fftw_plan_r2r_1d plan.size plan.in_ plan.out fw ⟨true, choose_effort s_effort⟩
            plan.forward,
           .fftw_plan_r2r_1d plan.size plan.in_ plan.out bw ⟨true, choose_effort s_effort⟩
            plan.backward]) := by
  have same : ∀ (s_type : Int) (k : fftw_r2r_kind), DCT_kinds s_type = some (k, k) →
      ∃ s w1 plan k, DCT_kinds s_type = some (k, k) ∧
        DCT_plan R s_n s_type s_effort w = .ok s w1 ∧
        load_dct_plan w1 (R_ExternalPtrAddr s) = some plan ∧
        plan.backward = plan.forward ∧
        derivations w1.trace = derivations w.trace ++
          [.fftw_plan_r2r_1d plan.size plan.in_ plan.out k ⟨true, choose_effort s_effort⟩
            plan.forward] := by
    intro t k hk
    obtain ⟨a, inp, out, f, b, w1, hok, hheap, htr, hb, -⟩ :=
      DCT_plan_ok R w s_n t s_effort k k hk
    have hbf : b = f := hb rfl
    subst hbf
    refine ⟨_, w1, ⟨plan_size s_n, 0, inp, out, b, b⟩, k, hk, hok, ?_, rfl, ?_⟩
    · simp [load_dct_plan, R_ExternalPtrAddr, hheap]
    · rw [htr]
      simp [derivations_append, derivations_initialization]
      simp [derivations, Event.is_derivation]
  have differ : ∀ (s_type : Int) (fw bw : fftw_r2r_kind), DCT_kinds s_type = some (fw, bw) →
      fw ≠ bw →
      ∃ s w1 plan fw bw, DCT_kinds s_type = some (fw, bw) ∧ fw ≠ bw ∧
        DCT_plan R s_n s_type s_effort w = .ok s w1 ∧
        load_dct_plan w1 (R_ExternalPtrAddr s) = some plan ∧
        derivations w1.trace = derivations w.trace ++
          [.fftw_plan_r2r_1d plan.size plan.in_ plan.out fw ⟨true, choose_effort s_effort⟩
            plan.forward,
           .fftw_plan_r2r_1d plan.size plan.in_ plan.out bw ⟨true, choose_effort s_effort⟩
            plan.backward] := by
    intro t fw bw hk hne
    obtain ⟨a, inp, out, f, b, w1, hok, hheap, htr, -, -⟩ :=
      DCT_plan_ok R w s_n t s_effort fw bw hk
    refine ⟨_, w1, ⟨plan_size s_n, 0, inp, out, f, b⟩, fw, bw, hk, hne, hok, ?_, ?_⟩
    · simp [load_dct_plan, R_ExternalPtrAddr, hheap]
    · rw [htr]
      simp [derivations_append, derivations_initialization, Ne.symm hne]
      simp [derivations, Event.is_derivation]
  refine ⟨by decide, by decide, by decide, by decide, ?_, ?_⟩
  · intro t ht
    rcases ht with rfl | rfl
    · exact same 1 .FFTW_REDFT00 (by decide)
    · exact same 4 .FFTW_REDFT11 (by decide)
  · intro t ht
    rcases ht with rfl | rfl
    · exact differ 2 .FFTW_REDFT10 .FFTW_REDFT01 (by decide) (by decide)
    · exact differ 3 .FFTW_REDFT01 .FFTW_REDFT10 (by decide) (by decide)

/-- C3, counterexample: with size 0 `FFT_plan`, and with size -3 `DCT_plan`
(type 2), returns a plan after two `fftw_malloc` calls and two planner calls;
no error is raised. -/
theorem plan_builders_accept_nonpositive_size :
    (FFT_plan demoRuntime [0] 0 emptyWorld).value? = some ⟨2, some .fft_plan_finalizer⟩ ∧
    (FFT_plan demoRuntime [0] 0 emptyWorld).trace =
      [.fftw_import_system_wisdom, .Calloc 2, .fftw_malloc 0 3, .fftw_malloc 0 4,
       .fftw_plan_dft_1d 0 3 4 .FFTW_FORWARD ⟨true, .FFTW_ESTIMATE⟩ 5,
       .fftw_plan_dft_1d 0 3 4 .FFTW_BACKWARD ⟨true, .FFTW_ESTIMATE⟩ 6] ∧
    (DCT_plan demoRuntime [-3] 2 0 emptyWorld).value? = some ⟨2, some .fft_plan_finalizer⟩ ∧
    (DCT_plan demoRuntime [-3] 2 0 emptyWorld).trace =
      [.fftw_import_system_wisdom, .Calloc 2, .fftw_malloc 18446744073709551592 3,
       .fftw_malloc 18446744073709551592 4,
       .fftw_plan_r2r_1d (-3) 3 4 .FFTW_REDFT10 ⟨true, .FFTW_ESTIMATE⟩ 5,
       .fftw_plan_r2r_1d (-3) 3 4 .FFTW_REDFT01 ⟨true, .FFTW_ESTIMATE⟩ 6] := by
  refine ⟨?_, ?_, ?_, ?_⟩ <;> decide

/-- C3, amended: `FFT_plan` and `DCT_plan` do not check the size.  For every
size `n <= 0` given as a single integer, every effort and every valid DCT type
they return a plan whose `size` is `n`, after asking `fftw_malloc` twice for
`sizeof(element) * n` bytes (in `size_t` arithmetic) and calling the planner
with size `n` (twice, or once for a DCT whose two kinds are equal). -/
theorem plan_builders_do_not_check_size (R : Runtime) (w : World) (n : Int) (s_effort : Int)
    (_hn : n ≤ 0) :
    (∃ s w1 plan, FFT_plan R [n] s_effort w = .ok s w1 ∧
      load_fft_plan w1 (R_ExternalPtrAddr s) = some plan ∧ plan.size = n ∧
      allocations w1.trace = allocations w.trace ++
        [.fftw_malloc (size_t_mul sizeof_fftw_complex n) plan.in_,
         .fftw_malloc (size_t_mul sizeof_fftw_complex n) plan.out] ∧
      derivations w1.trace = derivations w.trace ++
        [.fftw_plan_dft_1d n plan.in_ plan.out .FFTW_FORWARD ⟨true, choose_effort s_effort⟩
          plan.forward,
         .fftw_plan_dft_1d n plan.in_ plan.out .FFTW_BACKWARD ⟨true, choose_effort s_effort⟩
          plan.backward]) ∧
    (∀ (s_type : Int) (fw bw : fftw_r2r_kind), DCT_kinds s_type = some (fw, bw) →
      ∃ s w1 plan, DCT_plan R [n] s_type s_effort w = .ok s w1 ∧
        load_dct_plan w1 (R_ExternalPtrAddr s) = some plan ∧ plan.size = n ∧
        allocations w1.trace = allocations w.trace ++
          [.fftw_malloc (size_t_mul sizeof_double n) plan.in_,
           .fftw_malloc (size_t_mul sizeof_double n) plan.out] ∧
        derivations w1.trace = derivations w.trace ++
          .fftw_plan_r2r_1d n plan.in_ plan.out fw ⟨true, choose_effort s_effort⟩ plan.forward ::
          (if bw = fw then []
           else [.fftw_plan_r2r_1d n plan.in_ plan.out bw ⟨true, choose_effort s_effort⟩
            plan.backward])) := by
  constructor
  · obtain ⟨a, inp, out, f, b, w1, hok, hheap, htr, -⟩ := FFT_plan_ok R w [n] s_effort
    rw [plan_size_single] at hheap htr
    refine ⟨_, w1, ⟨n, inp, out, f, b⟩, hok, ?_, rfl, ?_, ?_⟩
    · simp [load_fft_plan, R_ExternalPtrAddr, hheap]
    · rw [htr]
      simp [allocations_append, allocations_initialization]
      simp [allocations, Event.is_allocation]
    · rw [htr]
      simp [derivations_append, derivations_initialization]
      simp [derivations, Event.is_derivation]
  · intro t fw bw hk
    obtain ⟨a, inp, out, f, b, w1, hok, hheap, htr, -, -⟩ := DCT_plan_ok R w [n] t s_effort fw bw hk
    rw [plan_size_single] at hheap htr
    refine ⟨_, w1, ⟨n, 0, inp, out, f, b⟩, hok, ?_, rfl, ?_, ?_⟩
    · simp [load_dct_plan, R_ExternalPtrAddr, hheap]
    · rw [htr]
      by_cases hbf : bw = fw
      · simp [allocations_append, allocations_initialization, hbf]
        simp [allocations, Event.is_allocation]
      · simp [allocations_append, allocations_initialization, hbf]
        simp [allocations, Event.is_allocation]
    · rw [htr]
      by_cases hbf : bw = fw
      · simp [derivations_append, derivations_initialization, hbf]
        simp [derivations, Event.is_derivation]
      · simp [derivations_append, derivations_initialization, hbf]
        simp [derivations, Event.is_derivation]

/-- C3, amended, for `FFT_plan` at size -3 and effort 2 in the empty world. -/
theorem plan_builders_do_not_check_size_witness :
    (∃ s w1 plan, FFT_plan demoRuntime [-3] 2 emptyWorld = .ok s w1 ∧
      load_fft_plan w1 (R_ExternalPtrAddr s) = some plan ∧ plan.size = -3 ∧
      allocations w1.trace = allocations emptyWorld.trace ++
        [.fftw_malloc (size_t_mul sizeof_fftw_complex (-3)) plan.in_,
         .fftw_malloc (size_t_mul sizeof_fftw_complex (-3)) plan.out] ∧
      derivations w1.trace = derivations emptyWorld.trace ++
        [.fftw_plan_dft_1d (-3) plan.in_ plan.out .FFTW_FORWARD ⟨true, choose_effort 2⟩
          plan.forward,
         .fftw_plan_dft_1d (-3) plan.in_ plan.out .FFTW_BACKWARD ⟨true, choose_effort 2⟩
          plan.backward]) :=
  (plan_builders_do_not_check_size demoRuntime emptyWorld (-3) 2 (by decide)).1

/-- C1: for DCT types 1 and 4 `DCT_plan` stores one handle in `forward` and
`backward` and registers `fft_plan_finalizer`.  Running the registered
finalizer calls `fftw_destroy_plan` on that handle twice (never exactly once:
not at all when the handle is `NULL`), whereas `dct_plan_finalizer` on the same
plan would call it once. -/
theorem DCT_plan_shared_strategy_destroyed_twice (R : Runtime) (w : World) (s_n : List Int)
    (s_type s_effort : Int) (ht : s_type = 1 ∨ s_type = 4) :
    ∃ s w1 plan w2 released w3 released_dct,
      DCT_plan R s_n s_type s_effort w = .ok s w1 ∧
      s.finalizer = some .fft_plan_finalizer ∧
      load_dct_plan w1 (R_ExternalPtrAddr s) = some plan ∧
      plan.backward = plan.forward ∧
      run_finalizer s w1 = .ok () w2 ∧
      w2.trace = w1.trace ++ released ∧
      released.count (.fftw_destroy_plan plan.forward) = (if plan.forward = NULL then 0 else 2) ∧
      dct_plan_finalizer s w1 = .ok () w3 ∧
      w3.trace = w1.trace ++ released_dct ∧
      released_dct.count (.fftw_destroy_plan plan.forward)
        = (if plan.forward = NULL then 0 else 1) := by
  have hk : ∃ k, DCT_kinds s_type = some (k, k) := by
    rcases ht with rfl | rfl
    · exact ⟨.FFTW_REDFT00, by decide⟩
    · exact ⟨.FFTW_REDFT11, by decide⟩
  obtain ⟨k, hk⟩ := hk
  obtain ⟨a, inp, out, f, b, w1, hok, hheap, -, hb, -⟩ := DCT_plan_ok R w s_n s_type s_effort k k hk
  have hbf : b = f := hb rfl
  subst hbf
  have hd : load_dct_plan w1 (R_ExternalPtrAddr ⟨a, some .fft_plan_finalizer⟩)
      = some ⟨plan_size s_n, 0, inp, out, b, b⟩ := by
    simp [load_dct_plan, R_ExternalPtrAddr, hheap]
  have hf : load_fft_plan w1 (R_ExternalPtrAddr ⟨a, some .fft_plan_finalizer⟩)
      = some ⟨plan_size s_n, inp, out, b, b⟩ := by
    simp [load_fft_plan, R_ExternalPtrAddr, hheap, dct_plan.as_fft_plan]
  obtain ⟨w2, h2, htr2, -⟩ := fft_plan_finalizer_ok _ w1 _ hf
  obtain ⟨w3, h3, htr3, -⟩ := dct_plan_finalizer_ok _ w1 _ hd
  refine ⟨_, w1, _, w2, fft_releases ⟨plan_size s_n, inp, out, b, b⟩ ++ [.Free a], w3,
    dct_releases ⟨plan_size s_n, 0, inp, out, b, b⟩ ++ [.Free a],
    hok, rfl, hd, rfl, ?_, ?_, ?_, h3, ?_, ?_⟩
  · simpa [run_finalizer] using h2
  · rw [htr2, List.append_assoc]
    rfl
  · by_cases hb0 : b = NULL
    · simp [fft_releases, hb0, List.count_cons, NULL]
      split_ifs <;> simp
    · have hb1 : ¬ (NULL = b) := fun h => hb0 h.symm
      simp [fft_releases, hb0, hb1, List.count_cons]
      split_ifs <;> simp
  · rw [htr3, List.append_assoc]
    rfl
  · by_cases hb0 : b = NULL
    · simp [dct_releases, hb0, List.count_cons, NULL]
      split_ifs <;> simp
    · have hb1 : ¬ (NULL = b) := fun h => hb0 h.symm
      simp [dct_releases, hb0, hb1, List.count_cons]
      split_ifs <;> simp

/-- C2, counterexample: for the FFT plan of size 4 and for the type 2 DCT plan
of size 4 built in the empty world, the first finalizer run releases both
buffers, both strategies and the record; a second run on the same external
pointer reads the freed record and is undefined, not a run that changes
nothing. -/
theorem second_disposal_is_undefined :
    ((FFT_plan demoRuntime [4] 0 emptyWorld).bind fun s w => fft_plan_finalizer s w).trace =
      [.fftw_import_system_wisdom, .Calloc 2, .fftw_malloc 64 3, .fftw_malloc 64 4,
       .fftw_plan_dft_1d 4 3 4 .FFTW_FORWARD ⟨true, .FFTW_ESTIMATE⟩ 5,
       .fftw_plan_dft_1d 4 3 4 .FFTW_BACKWARD ⟨true, .FFTW_ESTIMATE⟩ 6,
       .fftw_free 3, .fftw_free 4, .fftw_destroy_plan 5, .fftw_destroy_plan 6, .Free 2] ∧
    ((FFT_plan demoRuntime [4] 0 emptyWorld).bind fun s w =>
      (fft_plan_finalizer s w).bind fun _ w1 => fft_plan_finalizer s w1).is_undefined = true ∧
    ((DCT_plan demoRuntime [4] 2 0 emptyWorld).bind fun s w => dct_plan_finalizer s w).trace =
      [.fftw_import_system_wisdom, .Calloc 2, .fftw_malloc 32 3, .fftw_malloc 32 4,
       .fftw_plan_r2r_1d 4 3 4 .FFTW_REDFT10 ⟨true, .FFTW_ESTIMATE⟩ 5,
       .fftw_plan_r2r_1d 4 3 4 .FFTW_REDFT01 ⟨true, .FFTW_ESTIMATE⟩ 6,
       .fftw_free 3, .fftw_free 4, .fftw_destroy_plan 5, .fftw_destroy_plan 6, .Free 2] ∧
    ((DCT_plan demoRuntime [4] 2 0 emptyWorld).bind fun s w =>
      (dct_plan_finalizer s w).bind fun _ w1 => dct_plan_finalizer s w1).is_undefined = true := by
  refine ⟨?_, ?_, ?_, ?_⟩ <;> decide

/-- C2, amended: disposal is one-shot.  On a live plan record each finalizer
releases every buffer and strategy whose field is not `NULL`
(`dct_plan_finalizer` skipping `backward` when it equals `forward`), then frees
the record; it marks nothing as released and leaves buffers, other records and
`initialized` as they were.  A second run on the same external pointer reads
the freed record and is undefined. -/
theorem finalizers_release_once_then_undefined (s : ExternalPtr) (w : World) :
    (∀ plan : fft_plan, load_fft_plan w (R_ExternalPtrAddr s) = some plan →
      ∃ w1, fft_plan_finalizer s w = .ok () w1 ∧
        w1.trace = w.trace ++ fft_releases plan ++ [.Free (R_ExternalPtrAddr s)] ∧
        w1.heap (R_ExternalPtrAddr s) = none ∧
        (∀ q, q ≠ R_ExternalPtrAddr s → w1.heap q = w.heap q) ∧
        w1.mem = w.mem ∧ w1.initialized = w.initialized ∧
        fft_plan_finalizer s w1 = .undefined) ∧
    (∀ plan : dct_plan, load_dct_plan w (R_ExternalPtrAddr s) = some plan →
      ∃ w1, dct_plan_finalizer s w = .ok () w1 ∧
        w1.trace = w.trace ++ dct_releases plan ++ [.Free (R_ExternalPtrAddr s)] ∧
        w1.heap (R_ExternalPtrAddr s) = none ∧
        (∀ q, q ≠ R_ExternalPtrAddr s → w1.heap q = w.heap q) ∧
        w1.mem = w.mem ∧ w1.initialized = w.initialized ∧
        dct_plan_finalizer s w1 = .undefined) := by
  constructor
  · intro plan h
    obtain ⟨w1, h1, htr, hfree, hrest, hmem, hinit⟩ := fft_plan_finalizer_ok s w plan h
    exact ⟨w1, h1, htr, hfree, hrest, hmem, hinit, fft_plan_finalizer_freed s w1 hfree⟩
  · intro plan h
    obtain ⟨w1, h1, htr, hfree, hrest, hmem, hinit⟩ := dct_plan_finalizer_ok s w plan h
    exact ⟨w1, h1, htr, hfree, hrest, hmem, hinit, dct_plan_finalizer_freed s w1 hfree⟩

/-- C2, amended, for `fft_plan_finalizer` on the FFT plan of `demoWorld`. -/
theorem finalizers_release_once_then_undefined_witness :
    load_fft_plan demoWorld 1 = some ⟨2, 2, 3, 4, 5⟩ ∧
    ∃ w1, fft_plan_finalizer ⟨1, some .fft_plan_finalizer⟩ demoWorld = .ok () w1 ∧
      w1.trace = demoWorld.trace ++ fft_releases ⟨2, 2, 3, 4, 5⟩ ++ [.Free 1] ∧
      w1.heap 1 = none ∧
      (∀ q, q ≠ 1 → w1.heap q = demoWorld.heap q) ∧
      w1.mem = demoWorld.mem ∧ w1.initialized = demoWorld.initialized ∧
      fft_plan_finalizer ⟨1, some .fft_plan_finalizer⟩ w1 = .undefined :=
  ⟨by decide,
   (finalizers_release_once_then_undefined ⟨1, some .fft_plan_finalizer⟩ demoWorld).1
     ⟨2, 2, 3, 4, 5⟩ (by decide)⟩

/-- C1 at type 1, size 4, effort 0 in the empty world, with the log of the
build followed by the registered finalizer: handle 5 is destroyed twice. -/
theorem DCT_plan_shared_strategy_destroyed_twice_witness :
    (∃ s w1 plan w2 released w3 released_dct,
      DCT_plan demoRuntime [4] 1 0 emptyWorld = .ok s w1 ∧
      s.finalizer = some .fft_plan_finalizer ∧
      load_dct_plan w1 (R_ExternalPtrAddr s) = some plan ∧
      plan.backward = plan.forward ∧
      run_finalizer s w1 = .ok () w2 ∧
      w2.trace = w1.trace ++ released ∧
      released.count (.fftw_destroy_plan plan.forward) = (if plan.forward = NULL then 0 else 2) ∧
      dct_plan_finalizer s w1 = .ok () w3 ∧
      w3.trace = w1.trace ++ released_dct ∧
      released_dct.count (.fftw_destroy_plan plan.forward)
        = (if plan.forward = NULL then 0 else 1)) ∧
    ((DCT_plan demoRuntime [4] 1 0 emptyWorld).bind fun s w => run_finalizer s w).trace =
      [.fftw_import_system_wisdom, .Calloc 2, .fftw_malloc 32 3, .fftw_malloc 32 4,
       .fftw_plan_r2r_1d 4 3 4 .FFTW_REDFT00 ⟨true, .FFTW_ESTIMATE⟩ 5,
       .fftw_free 3, .fftw_free 4, .fftw_destroy_plan 5, .fftw_destroy_plan 5, .Free 2] :=
  ⟨DCT_plan_shared_strategy_destroyed_twice demoRuntime emptyWorld [4] 1 0 (Or.inl rfl),
   by decide⟩

/-- C8 at the efforts -5, 1, 2 and 7. -/
theorem choose_effort_levels_witness :
    choose_effort (-5) = .FFTW_ESTIMATE ∧ choose_effort 1 = .FFTW_MEASURE ∧
    choose_effort 2 = .FFTW_PATIENT ∧ choose_effort 7 = .FFTW_EXHAUSTIVE :=
  ⟨(choose_effort_levels (-5)).1 (by decide), (choose_effort_levels 1).2.1 rfl,
   (choose_effort_levels 2).2.2.1 rfl, (choose_effort_levels 7).2.2.2.1 (by decide)⟩

/-- C5 at type code 5, size 4, effort 0 in the empty world. -/
theorem DCT_plan_unknown_type_witness :
    DCT_plan demoRuntime [4] 5 0 emptyWorld = .error "Unknown type specified." emptyWorld :=
  DCT_plan_unknown_type demoRuntime emptyWorld [4] 5 0 (by decide)

/-- C4 on the plans of `demoWorld` (size 2), with inputs of length 1 and 3. -/
theorem execute_size_mismatch_witness :
    FFT_execute demoRuntime ⟨1, none⟩ (.REALSXP [⟨7⟩]) 0 demoWorld
      = .error "Input and plan size differ." demoWorld ∧
    DCT_execute demoRuntime ⟨6, none⟩ (.REALSXP [⟨7⟩, ⟨8⟩, ⟨9⟩]) 1 demoWorld
      = .error "Input and plan size differ." demoWorld :=
  ⟨(execute_size_mismatch demoRuntime demoWorld ⟨1, none⟩ (.REALSXP [⟨7⟩]) 0).1
     ⟨2, 2, 3, 4, 5⟩ (by decide) (by decide) (by decide),
   (execute_size_mismatch demoRuntime demoWorld ⟨6, none⟩ (.REALSXP [⟨7⟩, ⟨8⟩, ⟨9⟩]) 1).2
     ⟨2, 0, 7, 8, 9, 10⟩ (by decide) (by decide) (by decide)⟩

/-- C10 on the plans of `demoWorld`: an input of another type for the FFT, a
complex input for the DCT. -/
theorem execute_type_mismatch_witness :
    FFT_execute demoRuntime ⟨1, none⟩ (.other 2) 0 demoWorld
      = .error "'s_x' must be real or complex." demoWorld ∧
    DCT_execute demoRuntime ⟨6, none⟩ (.CPLXSXP [⟨⟨7⟩, ⟨8⟩⟩, ⟨⟨9⟩, ⟨10⟩⟩]) 0 demoWorld
      = .error "'s_x' must be real." demoWorld :=
  ⟨(execute_type_mismatch demoRuntime demoWorld ⟨1, none⟩ (.other 2) 0).1
     ⟨2, 2, 3, 4, 5⟩ (by decide) (by decide) (by decide) (by intro x h; cases h)
     (by intro x h; cases h),
   (execute_type_mismatch demoRuntime demoWorld ⟨6, none⟩
     (.CPLXSXP [⟨⟨7⟩, ⟨8⟩⟩, ⟨⟨9⟩, ⟨10⟩⟩]) 0).2
     ⟨2, 0, 7, 8, 9, 10⟩ (by decide) (by decide) (by decide) (by intro x h; cases h)⟩

/-- C9 on the FFT plan of `demoWorld` with the real input 7, 8. -/
theorem real_input_is_promoted_witness :
    FFT_execute demoRuntime ⟨1, none⟩ (.REALSXP [⟨7⟩, ⟨8⟩]) 0 demoWorld
      = FFT_execute demoRuntime ⟨1, none⟩ (.CPLXSXP [⟨⟨7⟩, ⟨0⟩⟩, ⟨⟨8⟩, ⟨0⟩⟩]) 0 demoWorld :=
  (real_input_is_promoted demoRuntime demoWorld ⟨1, none⟩ ⟨2, 2, 3, 4, 5⟩ [⟨7⟩, ⟨8⟩] 0
    (by decide) (by decide) (by decide)).2.1

/-- C6 on the FFT plan of `demoWorld`, inverse direction, complex input of
length 2. -/
theorem execute_returns_unscaled_output_witness :
    ∃ m_in ret w1, holds_complex m_in 2 [⟨⟨7⟩, ⟨8⟩⟩, ⟨⟨9⟩, ⟨10⟩⟩] ∧
      FFT_execute demoRuntime ⟨1, none⟩ (.CPLXSXP [⟨⟨7⟩, ⟨8⟩⟩, ⟨⟨9⟩, ⟨10⟩⟩]) 1 demoWorld
        = .ok (.CPLXSXP ret) w1 ∧
      w1.mem = demoRuntime.fftw_execute demoWorld.trace m_in 5 ∧
      w1.trace = demoWorld.trace ++ [.fftw_execute 5] ∧
      (ret.length : Int) = 2 ∧
      ∀ i (h : i < ret.length), ret[i] = ⟨w1.mem 3 (2 * i), w1.mem 3 (2 * i + 1)⟩ :=
  (execute_returns_unscaled_output demoRuntime demoWorld ⟨1, none⟩ 1).1
    ⟨2, 2, 3, 4, 5⟩ [⟨⟨7⟩, ⟨8⟩⟩, ⟨⟨9⟩, ⟨10⟩⟩] (by decide) (by decide) (by decide)

/-- C7 at type 4, size 8, effort 3 in the empty world. -/
theorem DCT_plan_kinds_witness :
    ∃ s w1 plan k, DCT_kinds 4 = some (k, k) ∧
      DCT_plan demoRuntime [8] 4 3 emptyWorld = .ok s w1 ∧
      load_dct_plan w1 (R_ExternalPtrAddr s) = some plan ∧
      plan.backward = plan.forward ∧
      derivations w1.trace = derivations emptyWorld.trace ++
        [.fftw_plan_r2r_1d plan.size plan.in_ plan.out k ⟨true, choose_effort 3⟩ plan.forward] :=
  (DCT_plan_kinds demoRuntime emptyWorld [8] 3).2.2.2.2.1 4 (Or.inr rfl)

end Fftw
